import Mathlib

/-!
Verification of the training loop in `tools/train.py` of the
Deep-Learning repository (multi-label image classification trainer).

The embedding models:
* floating-point metric scalars as rationals extended with a NaN element
  (`FVal`); every division occurring in the code has a nonnegative numerator
  bounded by its denominator, so the only division-by-zero case is `0/0`,
  which IEEE floats map to NaN, matching `FVal.div`;
* the running-mean `Averager` from `tools/utils.py` (not included in the
  sources, modelled from the spec);
* `LitModel.training_step` as an event trace (the tensor payloads of the
  forward/backward pass live in the external framework);
* `LitModel.validation_step`'s metric block as a function on batches of
  per-label probabilities and multi-hot labels;
* the Lightning fit loop at epoch granularity: each epoch runs the training
  batches (whose optimizer effect on the weights is abstracted as the
  sequence of parameter values they produce), steps both schedulers once via
  `on_train_epoch_end`, and, when a validation loader is present, runs the
  validation batches and `on_validation_epoch_end`;
* `torch.save`/`torch.load` against a filesystem modelled as an association
  list from paths to saved parameter states;
* the driver `train(args)` with its two modes, recording the
  `create_dataset`/`create_dataloader` calls it makes.
-/

/-- A floating-point scalar as produced by the metric computations:
either a real (rational) number or NaN.  Infinities never arise in this
code (see the module docstring), so they are not modelled. -/
inductive FVal where
  | nan : FVal
  | num : ℚ → FVal
deriving DecidableEq, Repr

namespace FVal

/-- Float addition: NaN propagates. -/
def add : FVal → FVal → FVal
  | num a, num b => num (a + b)
  | _, _ => nan

/-- Float multiplication as used on metric scalars: NaN propagates.
(No 0·∞ cases arise because infinities never do.) -/
def mul : FVal → FVal → FVal
  | num a, num b => num (a * b)
  | _, _ => nan

/-- Float division: NaN propagates, and division by zero yields NaN
(all zero denominators in this code come with a zero numerator: `0/0`). -/
def div : FVal → FVal → FVal
  | num a, num b => if b = 0 then nan else num (a / b)
  | _, _ => nan

/-- The float comparison `x > y`: any comparison involving NaN is false. -/
def gt : FVal → FVal → Bool
  | num a, num b => decide (b < a)
  | _, _ => false

end FVal

/-- Modelled from the spec: the Metric Averager of `tools/utils.py`
(the file is not under the sources; the spec gives its contract in
section 4.1): `add` accumulates a running sum and increments a count,
`val` returns sum/count (NaN when count = 0), `reset` zeroes both. -/
structure Averager where
  sum : FVal
  count : ℕ
deriving DecidableEq, Repr

namespace Averager

/-- A fresh averager: zero sum, zero count. -/
def init : Averager := ⟨FVal.num 0, 0⟩

/-- Method `add(x)`: accumulate `x` into the sum and increment the count. -/
def add (a : Averager) (x : FVal) : Averager := ⟨a.sum.add x, a.count + 1⟩

/-- Method `val()`: the running mean sum/count; NaN when the count is zero. -/
def val (a : Averager) : FVal := a.sum.div (FVal.num a.count)

/-- Method `reset()`: back to the zero state. -/
def reset (_ : Averager) : Averager := init

end Averager

/-- The configuration object `args` (spec section 6 lists the recognized
options; only those the modelled code paths read are kept). -/
structure Args where
  model : String
  lr : ℚ
  lr_head : ℚ
  weight_decay : ℚ
  warmup_pct : ℚ
  clip_grad : ℚ
  epochs : ℕ
  batch_size : ℕ
  num_workers : ℕ
  train_dirs : List String
  val_dirs : List String
  train_full : Bool
deriving DecidableEq, Repr

/-- The best-F1 checkpoint path `saved_models/{args.model}_val.pt`
(train.py line 128). -/
def valPath (model : String) : String := "saved_models/" ++ model ++ "_val.pt"

/-- The full-training checkpoint path `saved_models/{args.model}_full.pt`
(train.py line 178). -/
def fullPath (model : String) : String := "saved_models/" ++ model ++ "_full.pt"

/-- The filesystem as seen through `torch.save`/`torch.load`: an association
list from paths to saved parameter states, most recent write first. -/
abbrev FS (P : Type) : Type := List (String × P)

namespace FS

/-- Call `torch.save(state, path)`: record the state at the path (a later lookup
finds this entry first, so an old entry at the same path is overwritten). -/
def save {P : Type} (fs : FS P) (path : String) (p : P) : FS P :=
  (path, p) :: fs

/-- Call `torch.load(path)` followed by `load_state_dict`: the most recent state
saved at the path, or a `FileNotFoundError` when none exists. -/
def load {P : Type} (fs : FS P) (path : String) : Except String P :=
  match List.lookup path fs with
  | some p => Except.ok p
  | none => Except.error ("FileNotFoundError: " ++ path)

end FS

/-- Which of the two optimizer/scheduler pairs an operation acts on:
the feature extractor's or the classifier head's. -/
inductive SubModule where
  | feat : SubModule
  | head : SubModule
deriving DecidableEq, Repr

/-- The loss criterion; train.py line 18 sets `self.criterion = nn.BCELoss()`. -/
inductive LossKind where
  | bce : LossKind
deriving DecidableEq, Repr

/-- One observable operation of `training_step` (train.py lines 54-79).
Tensor payloads (images, activations, gradients) live in the external
framework; the events record the operations and their scalar arguments. -/
inductive TrainEvent where
  | setTrainMode : TrainEvent
  | forward : TrainEvent
  | computeLoss (kind : LossKind) : TrainEvent
  | zeroGrad (m : SubModule) : TrainEvent
  | backward : TrainEvent
  | clipGradients (m : SubModule) (maxNorm : ℚ) (how : String) : TrainEvent
  | optStep (m : SubModule) : TrainEvent
  | logScalar (tag : String) : TrainEvent
deriving DecidableEq, Repr

/-- Method `LitModel.training_step` (train.py lines 54-79), transcribed line by
line as the trace of operations it performs on one batch. -/
def training_step (args : Args) : List TrainEvent :=
  [ TrainEvent.setTrainMode,                                 -- self.model.train()
    TrainEvent.forward,                                      -- preds = self.model(images)
    TrainEvent.computeLoss LossKind.bce,                     -- loss = self.criterion(preds, labels)
    TrainEvent.zeroGrad SubModule.feat,                      -- feat_optimizer.zero_grad()
    TrainEvent.zeroGrad SubModule.head,                      -- head_optimizer.zero_grad()
    TrainEvent.backward,                                     -- self.manual_backward(loss)
    TrainEvent.clipGradients SubModule.feat args.clip_grad "norm",
    TrainEvent.clipGradients SubModule.head args.clip_grad "norm",
    TrainEvent.optStep SubModule.feat,                       -- feat_optimizer.step()
    TrainEvent.optStep SubModule.head,                       -- head_optimizer.step()
    TrainEvent.logScalar "loss",
    TrainEvent.logScalar "feat_lr",
    TrainEvent.logScalar "head_lr" ]

/-- The mutable state of the `LitModel` instance that the claims touch:
the wrapped model's parameters, the best-F1 tracker (train.py line 29),
the F1 averager (line 23; the loss/acc/precision/recall averagers only
feed the printed summary and are omitted), and the number of `step()`
calls each scheduler has received. -/
structure LitModel (P : Type) where
  model : P
  best_f1 : FVal
  f1_val_avg : Averager
  featSchedSteps : ℕ
  headSchedSteps : ℕ
deriving DecidableEq, Repr

/-- Constructor `LitModel.__init__` (train.py lines 13-29): fresh averager, best F1
initialized to 0.0, schedulers not yet stepped. -/
def LitModel.init {P : Type} (p : P) : LitModel P :=
  ⟨p, FVal.num 0, Averager.init, 0, 0⟩

/-- Hook `LitModel.on_train_epoch_end` (train.py lines 82-86): step both
learning-rate schedulers once. -/
def on_train_epoch_end {P : Type} (s : LitModel P) : LitModel P :=
  { s with featSchedSteps := s.featSchedSteps + 1,
           headSchedSteps := s.headSchedSteps + 1 }

/-- A batch of tensors shaped [B, 10], row-major: the predictions
(per-label probabilities) and the labels (multi-hot 0/1 matrices) of
`validation_step` both have this shape. -/
abbrev Mat : Type := List (List ℚ)

/-- Elementwise tensor operation on two matrices (pytorch broadcasting
never triggers here: both operands are [B, 10]). -/
def Mat.zip2 (f : ℚ → ℚ → ℚ) (a b : Mat) : Mat :=
  List.zipWith (List.zipWith f) a b

/-- Elementwise function of one matrix, e.g. `1 - m` or a comparison
against a scalar threshold. -/
def Mat.emap (f : ℚ → ℚ) (a : Mat) : Mat := a.map (List.map f)

/-- Tensor `.sum()`: sum of all entries of the matrix. -/
def Mat.tsum (a : Mat) : ℚ := (a.map List.sum).sum

/-- Line `preds = (preds > 0.5).float()` (train.py line 100): binarize the
predicted probabilities at threshold 0.5. -/
def binarize (preds : Mat) : Mat :=
  Mat.emap (fun p => if (1 : ℚ)/2 < p then 1 else 0) preds

/-- The metrics computed by one `validation_step` call
(train.py lines 100-107). -/
structure ValMetrics where
  tp : ℚ
  fp : ℚ
  «fn» : ℚ
  acc : FVal
  precision : FVal
  «recall» : FVal
  f1 : FVal
deriving DecidableEq, Repr

/-- The metric block of `LitModel.validation_step` (train.py lines
100-107): binarize the predicted probabilities at threshold 0.5, then
accuracy, micro confusion counts, precision, recall, F1.  The divisions
are the float divisions of the source, with no zero guard. -/
def validation_step_metrics (preds labels : Mat) : ValMetrics :=
  let batch_size : ℕ := preds.length                            -- images.size(0)
  let predsB := binarize preds                                  -- preds = (preds > 0.5).float()
  let acc := FVal.div
    (FVal.num (Mat.tsum (Mat.zip2 (fun p l => if p = l then 1 else 0) predsB labels)))
    (FVal.num ((batch_size : ℚ) * 10))                          -- (preds == labels).sum() / (batch_size * 10)
  let tp := Mat.tsum (Mat.zip2 (· * ·) predsB labels)           -- (preds * labels).sum()
  let fp := Mat.tsum (Mat.zip2 (· * ·) predsB (Mat.emap (1 - ·) labels))
                                                                -- (preds * (1 - labels)).sum()
  let «fn» := Mat.tsum (Mat.zip2 (· * ·) (Mat.emap (1 - ·) predsB) labels)
                                                                -- ((1 - preds) * labels).sum()
  let precision := FVal.div (FVal.num tp) (FVal.num (tp + fp))  -- tp / (tp + fp)
  let «recall» := FVal.div (FVal.num tp) (FVal.num (tp + «fn»))   -- tp / (tp + fn)
  let f1 := FVal.div ((FVal.num 2).mul (precision.mul «recall»)) (precision.add «recall»)
                                                                -- 2 * precision * recall / (precision + recall)
  ⟨tp, fp, «fn», acc, precision, «recall», f1⟩

/-- Hook `LitModel.on_validation_epoch_end` (train.py lines 124-140): read the
epoch-average F1 from the averager; when it strictly exceeds the best F1
seen so far, update the tracker and save the model's state to
`saved_models/{args.model}_val.pt`; then reset the averagers. -/
def on_validation_epoch_end {P : Type} (args : Args) (s : LitModel P) (fs : FS P) :
    LitModel P × FS P :=
  let current_f1 := s.f1_val_avg.val
  if current_f1.gt s.best_f1 then
    ({ s with best_f1 := current_f1, f1_val_avg := s.f1_val_avg.reset },
     fs.save (valPath args.model) s.model)
  else
    ({ s with f1_val_avg := s.f1_val_avg.reset }, fs)

/-- One epoch of `trainer.fit` as the external data drives it: the
training batches are abstracted by the sequence of parameter states the
optimizer steps of `training_step` leave behind, and each validation
batch by the F1 value its `validation_step` computes (a `ValMetrics.f1`
of that batch's predictions and labels). -/
structure EpochData (P : Type) where
  batchParams : List P
  valBatchF1s : List FVal
deriving Repr

/-- The training phase of one fit epoch: every batch runs
`training_step` (which steps the optimizers, moving the weights, and
never touches a scheduler), then `on_train_epoch_end` steps both
schedulers once. -/
def runTrainEpoch {P : Type} (batchParams : List P) (s : LitModel P) : LitModel P :=
  on_train_epoch_end (batchParams.foldl (fun st p => { st with model := p }) s)

/-- The validation phase of one fit epoch: every batch's
`validation_step` adds its F1 into the averager (train.py line 119),
then `on_validation_epoch_end` runs. -/
def runValEpoch {P : Type} (args : Args) (f1s : List FVal) (s : LitModel P) (fs : FS P) :
    LitModel P × FS P :=
  on_validation_epoch_end args
    { s with f1_val_avg := f1s.foldl Averager.add s.f1_val_avg } fs

/-- One epoch of the fit loop: training phase, then the validation phase
when a validation dataloader was passed to `trainer.fit`. -/
def runFitEpoch {P : Type} (args : Args) (hasVal : Bool) (e : EpochData P)
    (sfs : LitModel P × FS P) : LitModel P × FS P :=
  let s := runTrainEpoch e.batchParams sfs.1
  if hasVal then runValEpoch args e.valBatchF1s s sfs.2 else (s, sfs.2)

/-- Call `trainer.fit`: run the epochs in order (`max_epochs = args.epochs`
bounds their number; the driver theorems relate `epochs.length` to it). -/
def fit {P : Type} (args : Args) (hasVal : Bool) (epochs : List (EpochData P))
    (sfs : LitModel P × FS P) : LitModel P × FS P :=
  epochs.foldl (fun acc e => runFitEpoch args hasVal e acc) sfs

/-- A `create_dataset(dirs, is_train)` call (train.py lines 147, 153-154). -/
structure DatasetCall where
  dirs : List String
  is_train : Bool
deriving DecidableEq, Repr

/-- A `create_dataloader(dataset, batch_size, num_workers, is_train)`
call (train.py lines 148-151, 156-163). -/
structure DataloaderCall where
  dataset : DatasetCall
  batch_size : ℕ
  num_workers : ℕ
  is_train : Bool
deriving DecidableEq, Repr

/-- The observable outcome of one `train(args)` run: the dataset and
dataloader constructions it performed, the final filesystem, and the
returned model's parameters (or the uncaught exception). -/
structure TrainRun (P : Type) where
  datasets : List DatasetCall
  dataloaders : List DataloaderCall
  fs : FS P
  result : Except String P

/-- The driver `train(args)` (train.py lines 143-187).  `initParams` is
the state of the freshly constructed `Model`, `epochs` the data the
loaders feed to the fit loop, `fs0` the filesystem before the run. -/
def train {P : Type} (args : Args) (initParams : P) (epochs : List (EpochData P))
    (fs0 : FS P) : TrainRun P :=
  if args.train_full then
    let train_dataset : DatasetCall := ⟨args.train_dirs ++ args.val_dirs, true⟩
    let train_loader : DataloaderCall :=
      ⟨train_dataset, args.batch_size, args.num_workers, true⟩
    let fitres := fit args false epochs (LitModel.init initParams, fs0)
    let fs := fitres.2.save (fullPath args.model) fitres.1.model
                                                        -- torch.save(..., f"...{args.model}_full.pt")
    ⟨[train_dataset], [train_loader], fs, Except.ok fitres.1.model⟩
  else
    let train_dataset : DatasetCall := ⟨args.train_dirs, true⟩
    let val_dataset : DatasetCall := ⟨args.val_dirs, false⟩
    let train_loader : DataloaderCall :=
      ⟨train_dataset, args.batch_size, args.num_workers, true⟩
    let val_loader : DataloaderCall :=
      ⟨val_dataset, args.batch_size, args.num_workers, true⟩  -- source passes is_train=True here
    let fitres := fit args true epochs (LitModel.init initParams, fs0)
    match fitres.2.load (valPath args.model) with         -- model.load_state_dict(torch.load(...))
    | Except.ok p =>
        ⟨[train_dataset, val_dataset], [train_loader, val_loader], fitres.2, Except.ok p⟩
    | Except.error e =>
        ⟨[train_dataset, val_dataset], [train_loader, val_loader], fitres.2, Except.error e⟩

/-- A run in which the externally supplied data drives each fit epoch
through one training batch (leaving the given parameter state behind)
and one validation batch (whose `validation_step` computes the given
F1 value), so the epoch-average F1 of epoch `i` is exactly the given
value. -/
def mkEpochs {P : Type} (l : List (P × FVal)) : List (EpochData P) :=
  l.map fun pv => ⟨[pv.1], [pv.2]⟩

/-- The float comparison `x <= y` used to state monotonicity of the
best-F1 tracker; comparisons involving NaN are false. -/
def FVal.le : FVal → FVal → Bool
  | FVal.num a, FVal.num b => decide (a ≤ b)
  | _, _ => false

/-- The parameter state held by the best-F1 checkpoint after a run over
the given (epoch parameters, epoch-average F1) pairs, starting from best
F1 `b` and checkpoint contents `c`: exactly the save policy of
`on_validation_epoch_end`, spelled out as a fold. -/
def bestCkptFold {P : Type} : List (P × FVal) → FVal → Option P → Option P
  | [], _, c => c
  | pv :: rest, b, c =>
      if pv.2.gt b then bestCkptFold rest pv.2 (some pv.1)
      else bestCkptFold rest b c

/-- Spec reading of the accuracy numerator: the count of label-wise
exact matches between binarized predictions and labels, pooled over the
whole batch and all labels. -/
def microMatches (pb lb : Mat) : ℕ :=
  (pb.flatten.zip lb.flatten).countP fun pl => pl.1 = pl.2

/-- Spec reading of the true-positive count: `sum(pred·label)` pooled
over the whole batch and all labels. -/
def microTP (pb lb : Mat) : ℚ :=
  ((pb.flatten.zip lb.flatten).map fun pl => pl.1 * pl.2).sum

/-- Spec reading of the false-positive count: `sum(pred·(1−label))`
pooled over the whole batch and all labels. -/
def microFP (pb lb : Mat) : ℚ :=
  ((pb.flatten.zip lb.flatten).map fun pl => pl.1 * (1 - pl.2)).sum

/-- Spec reading of the false-negative count: `sum((1−pred)·label)`
pooled over the whole batch and all labels. -/
def microFN (pb lb : Mat) : ℚ :=
  ((pb.flatten.zip lb.flatten).map fun pl => (1 - pl.1) * pl.2).sum

/-! ## General lemmas about the embedding -/

theorem fullPath_length (m : String) : (fullPath m).length = m.length + 21 := by
  have h1 : ("saved_models/" : String).length = 13 := rfl
  have h2 : ("_full.pt" : String).length = 8 := rfl
  simp [fullPath, String.length_append, h1, h2]
  omega

theorem valPath_length (m : String) : (valPath m).length = m.length + 20 := by
  have h1 : ("saved_models/" : String).length = 13 := rfl
  have h2 : ("_val.pt" : String).length = 7 := rfl
  simp [valPath, String.length_append, h1, h2]
  omega

theorem fullPath_ne_valPath (m : String) : fullPath m ≠ valPath m := by
  intro h
  have := congrArg String.length h
  rw [fullPath_length, valPath_length] at this
  omega

theorem avg_single (v : FVal) : (Averager.init.add v).val = v := by
  cases v with
  | nan => rfl
  | num q =>
      simp [Averager.init, Averager.add, Averager.val, FVal.add, FVal.div]

theorem fit_nil {P : Type} (args : Args) (hv : Bool) (sfs : LitModel P × FS P) :
    fit args hv [] sfs = sfs := rfl

theorem fit_cons {P : Type} (args : Args) (hv : Bool) (e : EpochData P)
    (es : List (EpochData P)) (sfs : LitModel P × FS P) :
    fit args hv (e :: es) sfs = fit args hv es (runFitEpoch args hv e sfs) := rfl

theorem fit_append {P : Type} (args : Args) (hv : Bool) (e₁ e₂ : List (EpochData P))
    (sfs : LitModel P × FS P) :
    fit args hv (e₁ ++ e₂) sfs = fit args hv e₂ (fit args hv e₁ sfs) :=
  List.foldl_append _ _ _ _

theorem fit_false_fs {P : Type} (args : Args) (epochs : List (EpochData P))
    (sfs : LitModel P × FS P) : (fit args false epochs sfs).2 = sfs.2 := by
  induction epochs generalizing sfs with
  | nil => rfl
  | cons e es ih =>
      rw [fit_cons, ih]
      rfl

theorem sum_zipWith_mul_nonneg :
    ∀ u v : List ℚ, (∀ x ∈ u, 0 ≤ x) → (∀ x ∈ v, 0 ≤ x) →
      0 ≤ (List.zipWith (· * ·) u v).sum := by
  intro u
  induction u with
  | nil => intro v _ _; simp
  | cons x u ih =>
      intro v hu hv
      cases v with
      | nil => simp
      | cons y v =>
          simp only [List.zipWith_cons_cons, List.sum_cons]
          have hx : 0 ≤ x := hu x (List.mem_cons_self _ _)
          have hy : 0 ≤ y := hv y (List.mem_cons_self _ _)
          have hr := ih v (fun a ha => hu a (List.mem_cons_of_mem _ ha))
            (fun a ha => hv a (List.mem_cons_of_mem _ ha))
          exact add_nonneg (mul_nonneg hx hy) hr

theorem tsum_zip2_mul_nonneg :
    ∀ a b : Mat, (∀ r ∈ a, ∀ x ∈ r, 0 ≤ x) → (∀ r ∈ b, ∀ x ∈ r, 0 ≤ x) →
      0 ≤ Mat.tsum (Mat.zip2 (· * ·) a b) := by
  intro a
  induction a with
  | nil => intro b _ _; simp [Mat.tsum, Mat.zip2]
  | cons r a ih =>
      intro b ha hb
      cases b with
      | nil => simp [Mat.tsum, Mat.zip2]
      | cons s b =>
          simp only [Mat.zip2, List.zipWith_cons_cons, Mat.tsum, List.map_cons, List.sum_cons]
          refine add_nonneg ?_ ?_
          · exact sum_zipWith_mul_nonneg r s
              (ha r (List.mem_cons_self _ _)) (hb s (List.mem_cons_self _ _))
          · exact ih b (fun t ht => ha t (List.mem_cons_of_mem _ ht))
              (fun t ht => hb t (List.mem_cons_of_mem _ ht))

theorem binarize_entries_nonneg (preds : Mat) :
    ∀ r ∈ binarize preds, ∀ x ∈ r, 0 ≤ x := by
  intro r hr x hx
  simp only [binarize, Mat.emap, List.mem_map] at hr
  obtain ⟨r', _, rfl⟩ := hr
  simp only [List.mem_map] at hx
  obtain ⟨p, _, rfl⟩ := hx
  split <;> norm_num

theorem one_sub_binary_nonneg (lb : Mat)
    (hl : ∀ r ∈ lb, ∀ x ∈ r, x = 0 ∨ x = 1) :
    ∀ r ∈ Mat.emap (1 - ·) lb, ∀ x ∈ r, 0 ≤ x := by
  intro r hr x hx
  simp only [Mat.emap, List.mem_map] at hr
  obtain ⟨r', hr', rfl⟩ := hr
  simp only [List.mem_map] at hx
  obtain ⟨y, hy, rfl⟩ := hx
  rcases hl r' hr' y hy with h | h <;> simp [h]

theorem binary_entries_nonneg (lb : Mat)
    (hl : ∀ r ∈ lb, ∀ x ∈ r, x = 0 ∨ x = 1) :
    ∀ r ∈ lb, ∀ x ∈ r, 0 ≤ x := by
  intro r hr x hx
  rcases hl r hr x hx with h | h <;> simp [h]

/-! ## Claim theorems -/

/-- C3: for every training batch, `training_step` performs, in this
order: forward pass, binary-cross-entropy loss, zeroing of gradients for
both optimizers, a single backward pass, gradient-norm clipping applied
independently to each optimizer's parameter set with the configured
max-norm threshold `args.clip_grad`, and then a step of both optimizers. -/
theorem training_step_order (args : Args) :
    training_step args =
      [ TrainEvent.setTrainMode, TrainEvent.forward, TrainEvent.computeLoss LossKind.bce,
        TrainEvent.zeroGrad SubModule.feat, TrainEvent.zeroGrad SubModule.head,
        TrainEvent.backward,
        TrainEvent.clipGradients SubModule.feat args.clip_grad "norm",
        TrainEvent.clipGradients SubModule.head args.clip_grad "norm",
        TrainEvent.optStep SubModule.feat, TrainEvent.optStep SubModule.head,
        TrainEvent.logScalar "loss", TrainEvent.logScalar "feat_lr",
        TrainEvent.logScalar "head_lr" ]
    ∧ (training_step args).count TrainEvent.backward = 1 := by
  refine ⟨rfl, ?_⟩
  simp [training_step, List.count_cons]

/-- C6: the precision, recall and F1 divisions of `validation_step` are
unguarded: on any batch with binary labels and TP + FP = 0, both
confusion counts are zero and the precision and F1 computations divide
zero by zero, producing NaN rather than raising an error. -/
theorem unguarded_divisions_nan (preds labels : Mat)
    (hl : ∀ r ∈ labels, ∀ x ∈ r, x = 0 ∨ x = 1)
    (h0 : (validation_step_metrics preds labels).tp
        + (validation_step_metrics preds labels).fp = 0) :
    (validation_step_metrics preds labels).tp = 0
    ∧ (validation_step_metrics preds labels).fp = 0
    ∧ (validation_step_metrics preds labels).precision = FVal.nan
    ∧ (validation_step_metrics preds labels).f1 = FVal.nan := by
  have htp : 0 ≤ (validation_step_metrics preds labels).tp := by
    simp only [validation_step_metrics]
    exact tsum_zip2_mul_nonneg _ _ (binarize_entries_nonneg preds)
      (binary_entries_nonneg labels hl)
  have hfp : 0 ≤ (validation_step_metrics preds labels).fp := by
    simp only [validation_step_metrics]
    exact tsum_zip2_mul_nonneg _ _ (binarize_entries_nonneg preds)
      (one_sub_binary_nonneg labels hl)
  have htp0 : (validation_step_metrics preds labels).tp = 0 := by linarith
  have hfp0 : (validation_step_metrics preds labels).fp = 0 := by linarith
  refine ⟨htp0, hfp0, ?_, ?_⟩
  · show FVal.div (FVal.num (validation_step_metrics preds labels).tp)
        (FVal.num ((validation_step_metrics preds labels).tp
          + (validation_step_metrics preds labels).fp)) = FVal.nan
    rw [h0]
    simp [FVal.div]
  · show FVal.div
        ((FVal.num 2).mul ((validation_step_metrics preds labels).precision.mul
          (validation_step_metrics preds labels).recall))
        ((validation_step_metrics preds labels).precision.add
          (validation_step_metrics preds labels).recall) = FVal.nan
    have hprec : (validation_step_metrics preds labels).precision = FVal.nan := by
      show FVal.div (FVal.num (validation_step_metrics preds labels).tp)
          (FVal.num ((validation_step_metrics preds labels).tp
            + (validation_step_metrics preds labels).fp)) = FVal.nan
      rw [h0]
      simp [FVal.div]
    rw [hprec]
    simp [FVal.mul, FVal.div, FVal.add]

/-- C6 witness: a concrete batch (one sample, all ten probabilities 0.3,
all ten labels 0) has TP = FP = 0 and NaN precision and F1. -/
theorem unguarded_divisions_nan_witness :
    (∀ r ∈ ([[(0:ℚ),0,0,0,0,0,0,0,0,0]] : Mat), ∀ x ∈ r, x = 0 ∨ x = 1)
    ∧ ((validation_step_metrics [[(3/10:ℚ),3/10,3/10,3/10,3/10,3/10,3/10,3/10,3/10,3/10]]
          [[(0:ℚ),0,0,0,0,0,0,0,0,0]]).tp
        + (validation_step_metrics [[(3/10:ℚ),3/10,3/10,3/10,3/10,3/10,3/10,3/10,3/10,3/10]]
          [[(0:ℚ),0,0,0,0,0,0,0,0,0]]).fp = 0)
    ∧ ((validation_step_metrics [[(3/10:ℚ),3/10,3/10,3/10,3/10,3/10,3/10,3/10,3/10,3/10]]
          [[(0:ℚ),0,0,0,0,0,0,0,0,0]]).tp = 0
        ∧ (validation_step_metrics [[(3/10:ℚ),3/10,3/10,3/10,3/10,3/10,3/10,3/10,3/10,3/10]]
          [[(0:ℚ),0,0,0,0,0,0,0,0,0]]).fp = 0
        ∧ (validation_step_metrics [[(3/10:ℚ),3/10,3/10,3/10,3/10,3/10,3/10,3/10,3/10,3/10]]
          [[(0:ℚ),0,0,0,0,0,0,0,0,0]]).precision = FVal.nan
        ∧ (validation_step_metrics [[(3/10:ℚ),3/10,3/10,3/10,3/10,3/10,3/10,3/10,3/10,3/10]]
          [[(0:ℚ),0,0,0,0,0,0,0,0,0]]).f1 = FVal.nan) := by
  have h1 : ∀ r ∈ ([[(0:ℚ),0,0,0,0,0,0,0,0,0]] : Mat), ∀ x ∈ r, x = 0 ∨ x = 1 := by
    intro r hr x hx
    simp only [List.mem_singleton] at hr
    subst hr
    fin_cases hx <;> norm_num
  have h2 : (validation_step_metrics [[(3/10:ℚ),3/10,3/10,3/10,3/10,3/10,3/10,3/10,3/10,3/10]]
          [[(0:ℚ),0,0,0,0,0,0,0,0,0]]).tp
        + (validation_step_metrics [[(3/10:ℚ),3/10,3/10,3/10,3/10,3/10,3/10,3/10,3/10,3/10]]
          [[(0:ℚ),0,0,0,0,0,0,0,0,0]]).fp = 0 := by
    norm_num [validation_step_metrics, binarize, Mat.emap, Mat.zip2, Mat.tsum]
  exact ⟨h1, h2, unguarded_divisions_nan _ _ h1 h2⟩

/-- C7: in full mode, the training dataset is built from the union
(concatenation) of the train and validation directory sets, exactly one
dataloader is constructed (no validation loader), exactly one checkpoint
is written, at the `_full.pt` path (distinct from the `_val.pt` path),
and the returned model is the in-memory model whose state equals the
just-saved state. -/
theorem train_full_mode {P : Type} (args : Args) (p0 : P) (epochs : List (EpochData P))
    (fs0 : FS P) (hfull : args.train_full = true) :
    (train args p0 epochs fs0).datasets = [⟨args.train_dirs ++ args.val_dirs, true⟩]
    ∧ (train args p0 epochs fs0).dataloaders =
        [⟨⟨args.train_dirs ++ args.val_dirs, true⟩, args.batch_size, args.num_workers, true⟩]
    ∧ (train args p0 epochs fs0).fs =
        fs0.save (fullPath args.model) ((fit args false epochs (LitModel.init p0, fs0)).1.model)
    ∧ (train args p0 epochs fs0).result =
        Except.ok ((fit args false epochs (LitModel.init p0, fs0)).1.model)
    ∧ fullPath args.model ≠ valPath args.model := by
  have hfs := fit_false_fs args epochs (LitModel.init p0, fs0)
  refine ⟨?_, ?_, ?_, ?_, fullPath_ne_valPath _⟩ <;>
    simp [train, hfull, FS.save, hfs]

/-- C7 witness: a concrete full-mode run over one epoch. -/
theorem train_full_mode_witness :
    (let a : Args := ⟨"m", 0, 0, 0, 0, 0, 1, 4, 2, ["tr"], ["va"], true⟩
     a.train_full = true
     ∧ ((train a (7 : ℕ) [⟨[5], [FVal.num 1]⟩] []).datasets = [⟨a.train_dirs ++ a.val_dirs, true⟩]
        ∧ (train a (7 : ℕ) [⟨[5], [FVal.num 1]⟩] []).dataloaders =
            [⟨⟨a.train_dirs ++ a.val_dirs, true⟩, a.batch_size, a.num_workers, true⟩]
        ∧ (train a (7 : ℕ) [⟨[5], [FVal.num 1]⟩] []).fs =
            FS.save [] (fullPath a.model)
              ((fit a false [⟨[5], [FVal.num 1]⟩] (LitModel.init 7, [])).1.model)
        ∧ (train a (7 : ℕ) [⟨[5], [FVal.num 1]⟩] []).result =
            Except.ok ((fit a false [⟨[5], [FVal.num 1]⟩] (LitModel.init 7, [])).1.model)
        ∧ fullPath a.model ≠ valPath a.model)) :=
  ⟨rfl, train_full_mode _ 7 _ [] rfl⟩

/-- C10: in held-out mode, the validation dataset is constructed with
`is_train = False`, but the validation dataloader is constructed with
`is_train = True` (train.py lines 153-163). -/
theorem heldout_loader_flags {P : Type} (args : Args) (p0 : P) (epochs : List (EpochData P))
    (fs0 : FS P) (hfull : args.train_full = false) :
    (train args p0 epochs fs0).datasets = [⟨args.train_dirs, true⟩, ⟨args.val_dirs, false⟩]
    ∧ (train args p0 epochs fs0).dataloaders =
        [⟨⟨args.train_dirs, true⟩, args.batch_size, args.num_workers, true⟩,
         ⟨⟨args.val_dirs, false⟩, args.batch_size, args.num_workers, true⟩]
    ∧ ((train args p0 epochs fs0).datasets[1]?).map DatasetCall.is_train = some false
    ∧ ((train args p0 epochs fs0).dataloaders[1]?).map DataloaderCall.is_train = some true := by
  cases hload : FS.load (fit args true epochs (LitModel.init p0, fs0)).2 (valPath args.model) with
  | ok p => refine ⟨?_, ?_, ?_, ?_⟩ <;> simp [train, hfull, hload]
  | error e => refine ⟨?_, ?_, ?_, ?_⟩ <;> simp [train, hfull, hload]

theorem runFitEpoch_single {P : Type} (args : Args) (p : P) (v : FVal)
    (sfs : LitModel P × FS P) (havg : sfs.1.f1_val_avg = Averager.init) :
    runFitEpoch args true ⟨[p], [v]⟩ sfs =
      (⟨p, if v.gt sfs.1.best_f1 then v else sfs.1.best_f1, Averager.init,
        sfs.1.featSchedSteps + 1, sfs.1.headSchedSteps + 1⟩,
       if v.gt sfs.1.best_f1 then sfs.2.save (valPath args.model) p else sfs.2) := by
  obtain ⟨⟨m, b, a, f, h⟩, fs⟩ := sfs
  simp only at havg
  subst havg
  simp only [runFitEpoch, runTrainEpoch, List.foldl_cons, List.foldl_nil,
    on_train_epoch_end, runValEpoch, on_validation_epoch_end, avg_single, if_true]
  cases hgt : v.gt b <;> simp [hgt, Averager.reset]

theorem runFitEpoch_hasVal_avg {P : Type} (args : Args) (e : EpochData P)
    (sfs : LitModel P × FS P) :
    (runFitEpoch args true e sfs).1.f1_val_avg = Averager.init := by
  simp only [runFitEpoch, runValEpoch, on_validation_epoch_end, if_true]
  split <;> rfl

theorem fit_avg {P : Type} (args : Args) (l : List (EpochData P)) (sfs : LitModel P × FS P)
    (h : sfs.1.f1_val_avg = Averager.init) :
    (fit args true l sfs).1.f1_val_avg = Averager.init := by
  induction l generalizing sfs with
  | nil => exact h
  | cons e es ih => rw [fit_cons]; exact ih _ (runFitEpoch_hasVal_avg args e sfs)

theorem mkEpochs_append {P : Type} (l₁ l₂ : List (P × FVal)) :
    mkEpochs (l₁ ++ l₂) = mkEpochs l₁ ++ mkEpochs l₂ :=
  List.map_append _ _ _

theorem fit_take_succ {P : Type} (args : Args) (p0 : P) (fs0 : FS P)
    (l : List (P × FVal)) (i : ℕ) (hi : i < l.length) :
    fit args true (mkEpochs (l.take (i+1))) (LitModel.init p0, fs0) =
      runFitEpoch args true ⟨[l[i].1], [l[i].2]⟩
        (fit args true (mkEpochs (l.take i)) (LitModel.init p0, fs0)) := by
  have ht : l.take (i+1) = l.take i ++ [l[i]] := by
    rw [List.take_succ, List.getElem?_eq_getElem hi]
    rfl
  rw [ht, mkEpochs_append, fit_append]
  rfl

/-- The whole state of the run after epoch `i+1`, in terms of the state
after epoch `i` (single-training-batch, single-validation-batch epochs). -/
theorem fit_take_succ_step {P : Type} (args : Args) (p0 : P) (fs0 : FS P)
    (l : List (P × FVal)) (i : ℕ) (hi : i < l.length) :
    fit args true (mkEpochs (l.take (i+1))) (LitModel.init p0, fs0) =
      (⟨l[i].1,
        if (l[i].2).gt (fit args true (mkEpochs (l.take i)) (LitModel.init p0, fs0)).1.best_f1
        then l[i].2
        else (fit args true (mkEpochs (l.take i)) (LitModel.init p0, fs0)).1.best_f1,
        Averager.init,
        (fit args true (mkEpochs (l.take i)) (LitModel.init p0, fs0)).1.featSchedSteps + 1,
        (fit args true (mkEpochs (l.take i)) (LitModel.init p0, fs0)).1.headSchedSteps + 1⟩,
       if (l[i].2).gt (fit args true (mkEpochs (l.take i)) (LitModel.init p0, fs0)).1.best_f1
       then ((fit args true (mkEpochs (l.take i)) (LitModel.init p0, fs0)).2).save
              (valPath args.model) l[i].1
       else (fit args true (mkEpochs (l.take i)) (LitModel.init p0, fs0)).2) := by
  rw [fit_take_succ args p0 fs0 l i hi,
    runFitEpoch_single args l[i].1 l[i].2 _ (fit_avg args _ _ rfl)]

/-- C1: at each validation-epoch end, the best-F1 checkpoint (at path
`saved_models/{args.model}_val.pt`, holding the current model state) is
written if and only if the epoch's averaged F1 strictly exceeds the best
F1 seen so far, and the best-F1 value is updated to the current average
in exactly that case.  Epoch `i` of the run is driven by the pair
`l[i]` = (parameters left by its training batches, its epoch-average F1). -/
theorem checkpoint_write_iff {P : Type} (args : Args) (p0 : P) (fs0 : FS P)
    (l : List (P × FVal)) (i : ℕ) (hi : i < l.length) :
    ((fit args true (mkEpochs (l.take (i+1))) (LitModel.init p0, fs0)).2 =
      if (l[i].2).gt (fit args true (mkEpochs (l.take i)) (LitModel.init p0, fs0)).1.best_f1
      then ((fit args true (mkEpochs (l.take i)) (LitModel.init p0, fs0)).2).save
             (valPath args.model) l[i].1
      else (fit args true (mkEpochs (l.take i)) (LitModel.init p0, fs0)).2)
    ∧ ((fit args true (mkEpochs (l.take (i+1))) (LitModel.init p0, fs0)).1.best_f1 =
      if (l[i].2).gt (fit args true (mkEpochs (l.take i)) (LitModel.init p0, fs0)).1.best_f1
      then l[i].2
      else (fit args true (mkEpochs (l.take i)) (LitModel.init p0, fs0)).1.best_f1) := by
  rw [fit_take_succ_step args p0 fs0 l i hi]
  exact ⟨rfl, rfl⟩

/-- C1 witness: for the epoch-average F1 sequence [0.3, 0.5, 0.4, 0.6]
(epoch `i` leaving parameter state `i`), checkpoints are written after
epochs 1, 2 and 4 only — the final filesystem holds exactly the saves of
parameter states 3, 1, 0 (most recent first) at the `_val.pt` path — and
the write/update equations hold at epoch 4. -/
theorem checkpoint_write_iff_witness :
    (3 < ([((0:ℕ), FVal.num (3/10)), (1, FVal.num (1/2)), (2, FVal.num (2/5)),
          (3, FVal.num (3/5))] : List (ℕ × FVal)).length)
    ∧ ((fit ⟨"m", 0, 0, 0, 0, 0, 4, 4, 2, ["tr"], ["va"], false⟩ true
          (mkEpochs [((0:ℕ), FVal.num (3/10)), (1, FVal.num (1/2)), (2, FVal.num (2/5)),
            (3, FVal.num (3/5))])
          (LitModel.init 100, [])).2 =
        [(valPath "m", 3), (valPath "m", 1), (valPath "m", 0)])
    ∧ (let a : Args := ⟨"m", 0, 0, 0, 0, 0, 4, 4, 2, ["tr"], ["va"], false⟩
       let l : List (ℕ × FVal) := [(0, FVal.num (3/10)), (1, FVal.num (1/2)),
         (2, FVal.num (2/5)), (3, FVal.num (3/5))]
       ((fit a true (mkEpochs (l.take 4)) (LitModel.init 100, [])).2 =
         if (l[3].2).gt (fit a true (mkEpochs (l.take 3)) (LitModel.init 100, [])).1.best_f1
         then ((fit a true (mkEpochs (l.take 3)) (LitModel.init 100, [])).2).save
                (valPath a.model) l[3].1
         else (fit a true (mkEpochs (l.take 3)) (LitModel.init 100, [])).2)
       ∧ ((fit a true (mkEpochs (l.take 4)) (LitModel.init 100, [])).1.best_f1 =
         if (l[3].2).gt (fit a true (mkEpochs (l.take 3)) (LitModel.init 100, [])).1.best_f1
         then l[3].2
         else (fit a true (mkEpochs (l.take 3)) (LitModel.init 100, [])).1.best_f1)) := by
  refine ⟨by decide, ?_, checkpoint_write_iff _ 100 [] _ 3 (by decide)⟩
  norm_num [fit, runFitEpoch, runTrainEpoch, runValEpoch, on_train_epoch_end,
    on_validation_epoch_end, mkEpochs, Averager.add, Averager.val, Averager.init,
    Averager.reset, FVal.add, FVal.div, FVal.gt, LitModel.init, FS.save, List.foldl]

theorem gt_num_ite (q b : ℚ) :
    (if (FVal.num q).gt (FVal.num b) then FVal.num q else FVal.num b)
      = FVal.num (max b q) := by
  rcases le_or_lt q b with h | h
  · simp [FVal.gt, not_lt.2 h, max_eq_left h]
  · simp [FVal.gt, h, max_eq_right h.le]

theorem fit_best_num {P : Type} (args : Args) (p0 : P) :
    ∀ (qs : List ℚ) (s : LitModel P) (fs : FS P) (b : ℚ),
      s.f1_val_avg = Averager.init → s.best_f1 = FVal.num b →
      (fit args true (mkEpochs (qs.map fun q => (p0, FVal.num q))) (s, fs)).1.best_f1
        = FVal.num (qs.foldl max b) := by
  intro qs
  induction qs with
  | nil => intro s fs b _ hb; simpa using hb
  | cons q qs ih =>
      intro s fs b havg hb
      rw [show ((q :: qs).map fun q => (p0, FVal.num q))
            = (p0, FVal.num q) :: (qs.map fun q => (p0, FVal.num q)) from rfl,
        show mkEpochs ((p0, FVal.num q) :: (qs.map fun q => (p0, FVal.num q)))
            = (⟨[p0], [FVal.num q]⟩ : EpochData P)
              :: mkEpochs (qs.map fun q => (p0, FVal.num q)) from rfl,
        fit_cons, runFitEpoch_single args p0 (FVal.num q) (s, fs) havg]
      rw [List.foldl_cons]
      exact ih _ _ (max b q) rfl (by rw [hb, gt_num_ite])

theorem le_foldl_max : ∀ (l : List ℚ) (b : ℚ), b ≤ l.foldl max b := by
  intro l
  induction l with
  | nil => intro b; simp
  | cons x l ih => intro b; exact le_trans (le_max_left b x) (ih (max b x))

theorem foldl_max_take_mono :
    ∀ (qs : List ℚ) (i j : ℕ) (b : ℚ), i ≤ j →
      (qs.take i).foldl max b ≤ (qs.take j).foldl max b := by
  intro qs
  induction qs with
  | nil => intro i j b _; simp
  | cons x qs ih =>
      intro i j b hij
      cases i with
      | zero => simpa using le_foldl_max (List.take j (x :: qs)) b
      | succ i' =>
          cases j with
          | zero => omega
          | succ j' =>
              simp only [List.take_succ_cons, List.foldl_cons]
              exact ih i' j' (max b x) (Nat.succ_le_succ_iff.mp hij)

/-- C2: over any run with numeric epoch-average F1 values, the best-F1
tracker ends equal to the maximum of its initial value 0.0 and all
observed epoch averages, is monotonically non-decreasing along the run,
and every change of the tracker is accompanied by a write of the best-F1
checkpoint. -/
theorem best_f1_tracker {P : Type} (args : Args) (p0 : P) (fs0 : FS P) (qs : List ℚ) :
    ((fit args true (mkEpochs (qs.map fun q => (p0, FVal.num q)))
        (LitModel.init p0, fs0)).1.best_f1 = FVal.num (qs.foldl max 0))
    ∧ (∀ i j, i ≤ j →
        (((fit args true (mkEpochs ((qs.map fun q => (p0, FVal.num q)).take i))
            (LitModel.init p0, fs0)).1.best_f1).le
          ((fit args true (mkEpochs ((qs.map fun q => (p0, FVal.num q)).take j))
            (LitModel.init p0, fs0)).1.best_f1)) = true)
    ∧ (∀ i, i < qs.length →
        (fit args true (mkEpochs ((qs.map fun q => (p0, FVal.num q)).take (i+1)))
            (LitModel.init p0, fs0)).1.best_f1 ≠
          (fit args true (mkEpochs ((qs.map fun q => (p0, FVal.num q)).take i))
            (LitModel.init p0, fs0)).1.best_f1 →
        (fit args true (mkEpochs ((qs.map fun q => (p0, FVal.num q)).take (i+1)))
            (LitModel.init p0, fs0)).2 =
          ((fit args true (mkEpochs ((qs.map fun q => (p0, FVal.num q)).take i))
            (LitModel.init p0, fs0)).2).save (valPath args.model) p0) := by
  have hbest : ∀ n, (fit args true (mkEpochs ((qs.map fun q => (p0, FVal.num q)).take n))
      (LitModel.init p0, fs0)).1.best_f1 = FVal.num ((qs.take n).foldl max 0) := by
    intro n
    rw [← List.map_take]
    exact fit_best_num args p0 (qs.take n) _ fs0 0 rfl rfl
  refine ⟨?_, ?_, ?_⟩
  · exact fit_best_num args p0 qs _ fs0 0 rfl rfl
  · intro i j hij
    rw [hbest i, hbest j]
    simp only [FVal.le, decide_eq_true_eq]
    exact foldl_max_take_mono qs i j 0 hij
  · intro i hi hne
    have hlen : i < ((qs.map fun q => (p0, FVal.num q)) : List (P × FVal)).length := by
      simpa using hi
    have hstep := fit_take_succ_step args p0 fs0 (qs.map fun q => (p0, FVal.num q)) i hlen
    simp only [List.getElem_map] at hstep
    rw [hstep] at hne ⊢
    by_cases hgt : (FVal.num qs[i]).gt
        (fit args true (mkEpochs ((qs.map fun q => (p0, FVal.num q)).take i))
          (LitModel.init p0, fs0)).1.best_f1 = true
    · simp [hgt]
    · exfalso
      apply hne
      simp [hgt]

/-- C2 witness: the tracker properties instantiated on the concrete
epoch-average F1 sequence [0.3, 0.5, 0.4, 0.6]: final tracker value is
the running maximum 0.6, the tracker is monotone between epochs 1 and 3,
and its change at epoch 1 came with a checkpoint write. -/
theorem best_f1_tracker_witness :
    ((fit ⟨"m", 0, 0, 0, 0, 0, 4, 4, 2, ["tr"], ["va"], false⟩ true
        (mkEpochs (([3/10, 1/2, 2/5, 3/5] : List ℚ).map fun q => ((0:ℕ), FVal.num q)))
        (LitModel.init 0, [])).1.best_f1
      = FVal.num (([3/10, 1/2, 2/5, 3/5] : List ℚ).foldl max 0))
    ∧ (([3/10, 1/2, 2/5, 3/5] : List ℚ).foldl max 0 = 3/5)
    ∧ ((((fit ⟨"m", 0, 0, 0, 0, 0, 4, 4, 2, ["tr"], ["va"], false⟩ true
          (mkEpochs ((([3/10, 1/2, 2/5, 3/5] : List ℚ).map
            fun q => ((0:ℕ), FVal.num q)).take 1))
          (LitModel.init 0, [])).1.best_f1).le
        ((fit ⟨"m", 0, 0, 0, 0, 0, 4, 4, 2, ["tr"], ["va"], false⟩ true
          (mkEpochs ((([3/10, 1/2, 2/5, 3/5] : List ℚ).map
            fun q => ((0:ℕ), FVal.num q)).take 3))
          (LitModel.init 0, [])).1.best_f1)) = true)
    ∧ ((fit ⟨"m", 0, 0, 0, 0, 0, 4, 4, 2, ["tr"], ["va"], false⟩ true
          (mkEpochs ((([3/10, 1/2, 2/5, 3/5] : List ℚ).map
            fun q => ((0:ℕ), FVal.num q)).take 1))
          (LitModel.init 0, [])).2 =
        ((fit ⟨"m", 0, 0, 0, 0, 0, 4, 4, 2, ["tr"], ["va"], false⟩ true
          (mkEpochs ((([3/10, 1/2, 2/5, 3/5] : List ℚ).map
            fun q => ((0:ℕ), FVal.num q)).take 0))
          (LitModel.init 0, [])).2).save (valPath "m") 0) := by
  have hth := best_f1_tracker (P := ℕ) ⟨"m", 0, 0, 0, 0, 0, 4, 4, 2, ["tr"], ["va"], false⟩
    0 [] [3/10, 1/2, 2/5, 3/5]
  have hne : (fit ⟨"m", 0, 0, 0, 0, 0, 4, 4, 2, ["tr"], ["va"], false⟩ true
        (mkEpochs ((([3/10, 1/2, 2/5, 3/5] : List ℚ).map
          fun q => ((0:ℕ), FVal.num q)).take (0+1)))
        (LitModel.init 0, [])).1.best_f1 ≠
      (fit ⟨"m", 0, 0, 0, 0, 0, 4, 4, 2, ["tr"], ["va"], false⟩ true
        (mkEpochs ((([3/10, 1/2, 2/5, 3/5] : List ℚ).map
          fun q => ((0:ℕ), FVal.num q)).take 0))
        (LitModel.init 0, [])).1.best_f1 := by
    norm_num [fit, runFitEpoch, runTrainEpoch, runValEpoch, on_train_epoch_end,
      on_validation_epoch_end, mkEpochs, Averager.add, Averager.val, Averager.init,
      Averager.reset, FVal.add, FVal.div, FVal.gt, LitModel.init, FS.save,
      List.foldl, List.take]
  exact ⟨hth.1, by norm_num [List.foldl], hth.2.1 1 3 (by norm_num),
    hth.2.2 0 (by norm_num) hne⟩

theorem foldl_setModel_sched {P : Type} :
    ∀ (bp : List P) (s : LitModel P),
      (bp.foldl (fun st p => { st with model := p }) s).featSchedSteps = s.featSchedSteps
      ∧ (bp.foldl (fun st p => { st with model := p }) s).headSchedSteps = s.headSchedSteps := by
  intro bp
  induction bp with
  | nil => intro s; exact ⟨rfl, rfl⟩
  | cons p bp ih => intro s; simpa using ih { s with model := p }

theorem runFitEpoch_sched {P : Type} (args : Args) (hv : Bool) (e : EpochData P)
    (sfs : LitModel P × FS P) :
    (runFitEpoch args hv e sfs).1.featSchedSteps = sfs.1.featSchedSteps + 1
    ∧ (runFitEpoch args hv e sfs).1.headSchedSteps = sfs.1.headSchedSteps + 1 := by
  have hfold := foldl_setModel_sched e.batchParams sfs.1
  cases hv with
  | false =>
      simp only [runFitEpoch, runTrainEpoch, on_train_epoch_end, Bool.false_eq_true,
        if_false]
      exact ⟨by rw [hfold.1], by rw [hfold.2]⟩
  | true =>
      simp only [runFitEpoch, runTrainEpoch, on_train_epoch_end, if_true,
        runValEpoch, on_validation_epoch_end]
      split <;> exact ⟨by simp [hfold.1], by simp [hfold.2]⟩

theorem fit_sched {P : Type} (args : Args) (hv : Bool) :
    ∀ (epochs : List (EpochData P)) (sfs : LitModel P × FS P),
      (fit args hv epochs sfs).1.featSchedSteps = sfs.1.featSchedSteps + epochs.length
      ∧ (fit args hv epochs sfs).1.headSchedSteps = sfs.1.headSchedSteps + epochs.length := by
  intro epochs
  induction epochs with
  | nil => intro sfs; exact ⟨rfl, rfl⟩
  | cons e es ih =>
      intro sfs
      rw [fit_cons]
      have h1 := ih (runFitEpoch args hv e sfs)
      have h2 := runFitEpoch_sched args hv e sfs
      refine ⟨?_, ?_⟩ <;> simp [h1.1, h1.2, h2.1, h2.2, List.length_cons] <;> omega

/-- C4: both learning-rate schedulers are stepped exactly once per
completed training epoch and never per batch: after a fit of
`args.epochs` epochs each scheduler has been stepped exactly
`args.epochs` times regardless of how many training batches each epoch
ran, and the per-batch part of an epoch leaves both step counters
unchanged. -/
theorem scheduler_steps_once_per_epoch {P : Type} (args : Args) (hv : Bool) (p0 : P)
    (fs0 : FS P) (epochs : List (EpochData P)) (hE : epochs.length = args.epochs) :
    (fit args hv epochs (LitModel.init p0, fs0)).1.featSchedSteps = args.epochs
    ∧ (fit args hv epochs (LitModel.init p0, fs0)).1.headSchedSteps = args.epochs
    ∧ (∀ (bp : List P) (s : LitModel P),
        (bp.foldl (fun st p => { st with model := p }) s).featSchedSteps = s.featSchedSteps
        ∧ (bp.foldl (fun st p => { st with model := p }) s).headSchedSteps
            = s.headSchedSteps) := by
  have h := fit_sched args hv epochs (LitModel.init p0, fs0)
  refine ⟨?_, ?_, foldl_setModel_sched⟩
  · rw [h.1]
    simp [LitModel.init, hE]
  · rw [h.2]
    simp [LitModel.init, hE]

/-- C4 witness: a two-epoch fit (with different numbers of training
batches per epoch) steps each scheduler exactly twice. -/
theorem scheduler_steps_once_per_epoch_witness :
    (([⟨[1, 2], [FVal.num 1]⟩, ⟨[], [FVal.num 1, FVal.nan]⟩] : List (EpochData ℕ)).length
        = (⟨"m", 0, 0, 0, 0, 0, 2, 4, 2, ["tr"], ["va"], false⟩ : Args).epochs)
    ∧ ((fit ⟨"m", 0, 0, 0, 0, 0, 2, 4, 2, ["tr"], ["va"], false⟩ true
          [⟨[1, 2], [FVal.num 1]⟩, ⟨[], [FVal.num 1, FVal.nan]⟩]
          (LitModel.init 0, [])).1.featSchedSteps
        = (⟨"m", 0, 0, 0, 0, 0, 2, 4, 2, ["tr"], ["va"], false⟩ : Args).epochs
      ∧ (fit ⟨"m", 0, 0, 0, 0, 0, 2, 4, 2, ["tr"], ["va"], false⟩ true
          [⟨[1, 2], [FVal.num 1]⟩, ⟨[], [FVal.num 1, FVal.nan]⟩]
          (LitModel.init 0, [])).1.headSchedSteps
        = (⟨"m", 0, 0, 0, 0, 0, 2, 4, 2, ["tr"], ["va"], false⟩ : Args).epochs
      ∧ (∀ (bp : List ℕ) (s : LitModel ℕ),
          (bp.foldl (fun st p => { st with model := p }) s).featSchedSteps = s.featSchedSteps
          ∧ (bp.foldl (fun st p => { st with model := p }) s).headSchedSteps
              = s.headSchedSteps)) :=
  ⟨rfl, scheduler_steps_once_per_epoch _ true 0 [] _ rfl⟩

theorem Mat.tsum_eq_flatten_sum : ∀ a : Mat, Mat.tsum a = a.flatten.sum := by
  intro a
  induction a with
  | nil => rfl
  | cons r a ih =>
      simp only [Mat.tsum, List.map_cons, List.sum_cons, List.flatten_cons, List.sum_append]
      simp only [Mat.tsum] at ih
      rw [ih]

theorem Mat.emap_flatten (f : ℚ → ℚ) : ∀ a : Mat, (Mat.emap f a).flatten = a.flatten.map f := by
  intro a
  induction a with
  | nil => rfl
  | cons r a ih =>
      simp only [Mat.emap, List.map_cons, List.flatten_cons, List.map_append]
      simp only [Mat.emap] at ih
      rw [ih]

theorem Mat.emap_row_length (f : ℚ → ℚ) (a : Mat) (n : ℕ)
    (h : ∀ r ∈ a, r.length = n) : ∀ r ∈ Mat.emap f a, r.length = n := by
  intro r hr
  simp only [Mat.emap, List.mem_map] at hr
  obtain ⟨r', hr', rfl⟩ := hr
  simp [h r' hr']

theorem Mat.flatten_zip2 (f : ℚ → ℚ → ℚ) (n : ℕ) :
    ∀ a b : Mat, (∀ r ∈ a, r.length = n) → (∀ r ∈ b, r.length = n) →
      (Mat.zip2 f a b).flatten = List.zipWith f a.flatten b.flatten := by
  intro a
  induction a with
  | nil => intro b _ _; simp [Mat.zip2]
  | cons r a ih =>
      intro b ha hb
      cases b with
      | nil => simp [Mat.zip2]
      | cons s b =>
          have hrs : r.length = s.length := by
            rw [ha r (List.mem_cons_self _ _), hb s (List.mem_cons_self _ _)]
          simp only [Mat.zip2] at ih ⊢
          simp only [List.zipWith_cons_cons, List.flatten_cons]
          rw [List.zipWith_append _ _ _ _ _ hrs,
            ih b (fun t ht => ha t (List.mem_cons_of_mem _ ht))
              (fun t ht => hb t (List.mem_cons_of_mem _ ht))]

theorem sum_indicator_eq_countP :
    ∀ u v : List ℚ,
      (List.zipWith (fun p l => if p = l then (1:ℚ) else 0) u v).sum
        = (((u.zip v).countP fun pl => pl.1 = pl.2 : ℕ) : ℚ) := by
  intro u
  induction u with
  | nil => intro v; simp
  | cons x u ih =>
      intro v
      cases v with
      | nil => simp
      | cons y v =>
          simp only [List.zipWith_cons_cons, List.sum_cons, List.zip_cons_cons,
            List.countP_cons]
          rw [ih v]
          by_cases h : x = y
          · subst h
            simp only [if_pos rfl]
            push_cast
            simp [add_comm]
          · simp [h]

/-- C5: for every validation batch whose rows have the 10 per-label
entries, the `validation_step` metrics equal the micro-averaged
formulas of the spec: accuracy is the count of label-wise exact matches
over `B × 10`, the confusion counts are `sum(pred·label)`,
`sum(pred·(1−label))` and `sum((1−pred)·label)` pooled over the whole
batch and all 10 labels, and precision, recall and F1 are `TP/(TP+FP)`,
`TP/(TP+FN)` and `2PR/(P+R)` over those pooled counts, after binarizing
the predictions at threshold 0.5. -/
theorem validation_metrics_micro (preds labels : Mat)
    (hp : ∀ r ∈ preds, r.length = 10) (hl : ∀ r ∈ labels, r.length = 10) :
    (validation_step_metrics preds labels).tp = microTP (binarize preds) labels
    ∧ (validation_step_metrics preds labels).fp = microFP (binarize preds) labels
    ∧ (validation_step_metrics preds labels).fn = microFN (binarize preds) labels
    ∧ (validation_step_metrics preds labels).acc =
        FVal.div (FVal.num (microMatches (binarize preds) labels))
          (FVal.num ((preds.length : ℚ) * 10))
    ∧ (validation_step_metrics preds labels).precision =
        FVal.div (FVal.num (microTP (binarize preds) labels))
          (FVal.num (microTP (binarize preds) labels + microFP (binarize preds) labels))
    ∧ (validation_step_metrics preds labels).recall =
        FVal.div (FVal.num (microTP (binarize preds) labels))
          (FVal.num (microTP (binarize preds) labels + microFN (binarize preds) labels))
    ∧ (validation_step_metrics preds labels).f1 =
        FVal.div ((FVal.num 2).mul
            ((validation_step_metrics preds labels).precision.mul
              (validation_step_metrics preds labels).recall))
          ((validation_step_metrics preds labels).precision.add
            (validation_step_metrics preds labels).recall) := by
  have hpb : ∀ r ∈ binarize preds, r.length = 10 :=
    Mat.emap_row_length _ preds 10 hp
  have htp : (validation_step_metrics preds labels).tp = microTP (binarize preds) labels := by
    show Mat.tsum (Mat.zip2 (· * ·) (binarize preds) labels) = _
    rw [Mat.tsum_eq_flatten_sum, Mat.flatten_zip2 _ 10 _ _ hpb hl,
      ← List.map_uncurry_zip_eq_zipWith]
    rfl
  have hfp : (validation_step_metrics preds labels).fp = microFP (binarize preds) labels := by
    show Mat.tsum (Mat.zip2 (· * ·) (binarize preds) (Mat.emap (1 - ·) labels)) = _
    rw [Mat.tsum_eq_flatten_sum,
      Mat.flatten_zip2 _ 10 _ _ hpb (Mat.emap_row_length _ labels 10 hl),
      Mat.emap_flatten, List.zipWith_map_right, ← List.map_uncurry_zip_eq_zipWith]
    rfl
  have hfn : (validation_step_metrics preds labels).fn = microFN (binarize preds) labels := by
    show Mat.tsum (Mat.zip2 (· * ·) (Mat.emap (1 - ·) (binarize preds)) labels) = _
    rw [Mat.tsum_eq_flatten_sum,
      Mat.flatten_zip2 _ 10 _ _ (Mat.emap_row_length _ _ 10 hpb) hl,
      Mat.emap_flatten, List.zipWith_map_left, ← List.map_uncurry_zip_eq_zipWith]
    rfl
  have hacc : (validation_step_metrics preds labels).acc =
      FVal.div (FVal.num (microMatches (binarize preds) labels))
        (FVal.num ((preds.length : ℚ) * 10)) := by
    show FVal.div
        (FVal.num (Mat.tsum (Mat.zip2 (fun p l => if p = l then 1 else 0)
          (binarize preds) labels)))
        (FVal.num ((preds.length : ℚ) * 10)) = _
    rw [Mat.tsum_eq_flatten_sum, Mat.flatten_zip2 _ 10 _ _ hpb hl,
      sum_indicator_eq_countP]
    rfl
  refine ⟨htp, hfp, hfn, hacc, ?_, ?_, rfl⟩
  · show FVal.div (FVal.num (validation_step_metrics preds labels).tp)
        (FVal.num ((validation_step_metrics preds labels).tp
          + (validation_step_metrics preds labels).fp)) = _
    rw [htp, hfp]
  · show FVal.div (FVal.num (validation_step_metrics preds labels).tp)
        (FVal.num ((validation_step_metrics preds labels).tp
          + (validation_step_metrics preds labels).fn)) = _
    rw [htp, hfn]

/-- C5 witness: a concrete one-sample batch (first probability 0.9, the
rest 0.1; first label 1, the rest 0): the pooled counts evaluate to
TP = 1, FP = 0, FN = 0 and the metric equations hold. -/
theorem validation_metrics_micro_witness :
    (∀ r ∈ ([[(9/10:ℚ), 1/10, 1/10, 1/10, 1/10, 1/10, 1/10, 1/10, 1/10, 1/10]] : Mat),
      r.length = 10)
    ∧ (∀ r ∈ ([[(1:ℚ), 0, 0, 0, 0, 0, 0, 0, 0, 0]] : Mat), r.length = 10)
    ∧ microTP (binarize [[(9/10:ℚ), 1/10, 1/10, 1/10, 1/10, 1/10, 1/10, 1/10, 1/10, 1/10]])
        [[(1:ℚ), 0, 0, 0, 0, 0, 0, 0, 0, 0]] = 1
    ∧ ((validation_step_metrics
          [[(9/10:ℚ), 1/10, 1/10, 1/10, 1/10, 1/10, 1/10, 1/10, 1/10, 1/10]]
          [[(1:ℚ), 0, 0, 0, 0, 0, 0, 0, 0, 0]]).tp =
        microTP (binarize [[(9/10:ℚ), 1/10, 1/10, 1/10, 1/10, 1/10, 1/10, 1/10, 1/10, 1/10]])
          [[(1:ℚ), 0, 0, 0, 0, 0, 0, 0, 0, 0]]
      ∧ (validation_step_metrics
          [[(9/10:ℚ), 1/10, 1/10, 1/10, 1/10, 1/10, 1/10, 1/10, 1/10, 1/10]]
          [[(1:ℚ), 0, 0, 0, 0, 0, 0, 0, 0, 0]]).fp =
        microFP (binarize [[(9/10:ℚ), 1/10, 1/10, 1/10, 1/10, 1/10, 1/10, 1/10, 1/10, 1/10]])
          [[(1:ℚ), 0, 0, 0, 0, 0, 0, 0, 0, 0]]
      ∧ (validation_step_metrics
          [[(9/10:ℚ), 1/10, 1/10, 1/10, 1/10, 1/10, 1/10, 1/10, 1/10, 1/10]]
          [[(1:ℚ), 0, 0, 0, 0, 0, 0, 0, 0, 0]]).fn =
        microFN (binarize [[(9/10:ℚ), 1/10, 1/10, 1/10, 1/10, 1/10, 1/10, 1/10, 1/10, 1/10]])
          [[(1:ℚ), 0, 0, 0, 0, 0, 0, 0, 0, 0]]
      ∧ (validation_step_metrics
          [[(9/10:ℚ), 1/10, 1/10, 1/10, 1/10, 1/10, 1/10, 1/10, 1/10, 1/10]]
          [[(1:ℚ), 0, 0, 0, 0, 0, 0, 0, 0, 0]]).acc =
        FVal.div (FVal.num (microMatches
            (binarize [[(9/10:ℚ), 1/10, 1/10, 1/10, 1/10, 1/10, 1/10, 1/10, 1/10, 1/10]])
            [[(1:ℚ), 0, 0, 0, 0, 0, 0, 0, 0, 0]]))
          (FVal.num ((([[(9/10:ℚ), 1/10, 1/10, 1/10, 1/10, 1/10, 1/10, 1/10, 1/10, 1/10]]
              : Mat).length : ℚ) * 10))
      ∧ (validation_step_metrics
          [[(9/10:ℚ), 1/10, 1/10, 1/10, 1/10, 1/10, 1/10, 1/10, 1/10, 1/10]]
          [[(1:ℚ), 0, 0, 0, 0, 0, 0, 0, 0, 0]]).precision =
        FVal.div (FVal.num (microTP
            (binarize [[(9/10:ℚ), 1/10, 1/10, 1/10, 1/10, 1/10, 1/10, 1/10, 1/10, 1/10]])
            [[(1:ℚ), 0, 0, 0, 0, 0, 0, 0, 0, 0]]))
          (FVal.num (microTP
              (binarize [[(9/10:ℚ), 1/10, 1/10, 1/10, 1/10, 1/10, 1/10, 1/10, 1/10, 1/10]])
              [[(1:ℚ), 0, 0, 0, 0, 0, 0, 0, 0, 0]]
            + microFP
              (binarize [[(9/10:ℚ), 1/10, 1/10, 1/10, 1/10, 1/10, 1/10, 1/10, 1/10, 1/10]])
              [[(1:ℚ), 0, 0, 0, 0, 0, 0, 0, 0, 0]]))
      ∧ (validation_step_metrics
          [[(9/10:ℚ), 1/10, 1/10, 1/10, 1/10, 1/10, 1/10, 1/10, 1/10, 1/10]]
          [[(1:ℚ), 0, 0, 0, 0, 0, 0, 0, 0, 0]]).recall =
        FVal.div (FVal.num (microTP
            (binarize [[(9/10:ℚ), 1/10, 1/10, 1/10, 1/10, 1/10, 1/10, 1/10, 1/10, 1/10]])
            [[(1:ℚ), 0, 0, 0, 0, 0, 0, 0, 0, 0]]))
          (FVal.num (microTP
              (binarize [[(9/10:ℚ), 1/10, 1/10, 1/10, 1/10, 1/10, 1/10, 1/10, 1/10, 1/10]])
              [[(1:ℚ), 0, 0, 0, 0, 0, 0, 0, 0, 0]]
            + microFN
              (binarize [[(9/10:ℚ), 1/10, 1/10, 1/10, 1/10, 1/10, 1/10, 1/10, 1/10, 1/10]])
              [[(1:ℚ), 0, 0, 0, 0, 0, 0, 0, 0, 0]]))
      ∧ (validation_step_metrics
          [[(9/10:ℚ), 1/10, 1/10, 1/10, 1/10, 1/10, 1/10, 1/10, 1/10, 1/10]]
          [[(1:ℚ), 0, 0, 0, 0, 0, 0, 0, 0, 0]]).f1 =
        FVal.div ((FVal.num 2).mul
            ((validation_step_metrics
              [[(9/10:ℚ), 1/10, 1/10, 1/10, 1/10, 1/10, 1/10, 1/10, 1/10, 1/10]]
              [[(1:ℚ), 0, 0, 0, 0, 0, 0, 0, 0, 0]]).precision.mul
              (validation_step_metrics
                [[(9/10:ℚ), 1/10, 1/10, 1/10, 1/10, 1/10, 1/10, 1/10, 1/10, 1/10]]
                [[(1:ℚ), 0, 0, 0, 0, 0, 0, 0, 0, 0]]).recall))
          ((validation_step_metrics
              [[(9/10:ℚ), 1/10, 1/10, 1/10, 1/10, 1/10, 1/10, 1/10, 1/10, 1/10]]
              [[(1:ℚ), 0, 0, 0, 0, 0, 0, 0, 0, 0]]).precision.add
            (validation_step_metrics
              [[(9/10:ℚ), 1/10, 1/10, 1/10, 1/10, 1/10, 1/10, 1/10, 1/10, 1/10]]
              [[(1:ℚ), 0, 0, 0, 0, 0, 0, 0, 0, 0]]).recall)) := by
  have hp : ∀ r ∈ ([[(9/10:ℚ), 1/10, 1/10, 1/10, 1/10, 1/10, 1/10, 1/10, 1/10, 1/10]] : Mat),
      r.length = 10 := by
    intro r hr
    simp only [List.mem_singleton] at hr
    subst hr
    rfl
  have hl : ∀ r ∈ ([[(1:ℚ), 0, 0, 0, 0, 0, 0, 0, 0, 0]] : Mat), r.length = 10 := by
    intro r hr
    simp only [List.mem_singleton] at hr
    subst hr
    rfl
  refine ⟨hp, hl, ?_, validation_metrics_micro _ _ hp hl⟩
  norm_num [microTP, binarize, Mat.emap]

theorem bestCkptFold_some {P : Type} :
    ∀ (l : List (P × FVal)) (b : FVal) (p : P),
      bestCkptFold l b (some p) =
        (match bestCkptFold l b none with
         | some q => some q
         | none => some p) := by
  intro l
  induction l with
  | nil => intro b p; rfl
  | cons pv rest ih =>
      intro b p
      by_cases hgt : pv.2.gt b = true
      · simp only [bestCkptFold, hgt, if_pos]
        rw [ih pv.2 pv.1]
        cases bestCkptFold rest pv.2 none <;> rfl
      · have hgtf : pv.2.gt b = false := by simpa using hgt
        simp only [bestCkptFold, hgtf, Bool.false_eq_true, if_false]
        exact ih b p

theorem bestCkptFold_const {P : Type} :
    ∀ (l : List (P × FVal)) (b : FVal) (c : Option P),
      (∀ pv ∈ l, pv.2.gt b = false) → bestCkptFold l b c = c := by
  intro l
  induction l with
  | nil => intro b c _; rfl
  | cons pv rest ih =>
      intro b c h
      have h0 : pv.2.gt b = false := h pv (List.mem_cons_self _ _)
      simp only [bestCkptFold, h0, Bool.false_eq_true, if_false]
      exact ih b c fun x hx => h x (List.mem_cons_of_mem _ hx)

theorem bestCkptFold_argmax {P : Type} :
    ∀ (l : List (P × FVal)) (i : ℕ) (hi : i < l.length) (q : ℚ) (b : FVal) (c : Option P),
      l[i].2 = FVal.num q →
      (FVal.num q).gt (((l.take i).map Prod.snd).foldl
        (fun b v => if v.gt b then v else b) b) = true →
      (∀ pv ∈ l.drop (i+1), pv.2.gt (FVal.num q) = false) →
      bestCkptFold l b c = some l[i].1 := by
  intro l
  induction l with
  | nil => intro i hi; simp at hi
  | cons pv rest ih =>
      intro i hi q b c hq hbest hafter
      cases i with
      | zero =>
          simp only [List.getElem_cons_zero] at hq ⊢
          have hgt : pv.2.gt b = true := by
            rw [hq]
            simpa using hbest
          simp only [bestCkptFold, hgt, if_pos]
          apply bestCkptFold_const
          intro pv' hpv'
          rw [hq]
          exact hafter pv' (by simpa using hpv')
      | succ i' =>
          simp only [List.getElem_cons_succ] at hq ⊢
          have hlen : i' < rest.length := by simpa using hi
          have hbest' : (FVal.num q).gt (((rest.take i').map Prod.snd).foldl
              (fun b v => if v.gt b then v else b) (if pv.2.gt b then pv.2 else b)) = true := by
            simpa [List.take_succ_cons, List.map_cons, List.foldl_cons] using hbest
          have hafter' : ∀ pv' ∈ rest.drop (i'+1), pv'.2.gt (FVal.num q) = false := by
            intro pv' h
            exact hafter pv' (by simpa using h)
          by_cases hgt : pv.2.gt b = true
          · simp only [bestCkptFold, hgt, if_pos]
            exact ih i' hlen q pv.2 (some pv.1) hq (by simpa [hgt] using hbest') hafter'
          · have hgtf : pv.2.gt b = false := by simpa using hgt
            simp only [bestCkptFold, hgtf, Bool.false_eq_true, if_false]
            exact ih i' hlen q b c hq (by simpa [hgtf] using hbest') hafter'

theorem fit_fs_lookup {P : Type} (args : Args) :
    ∀ (l : List (P × FVal)) (s : LitModel P) (fs : FS P),
      s.f1_val_avg = Averager.init →
      List.lookup (valPath args.model) (fit args true (mkEpochs l) (s, fs)).2 =
        (match bestCkptFold l s.best_f1 none with
         | some p => some p
         | none => List.lookup (valPath args.model) fs) := by
  intro l
  induction l with
  | nil => intro s fs _; rfl
  | cons pv rest ih =>
      intro s fs havg
      rw [show mkEpochs (pv :: rest) = (⟨[pv.1], [pv.2]⟩ : EpochData P) :: mkEpochs rest
          from rfl,
        fit_cons, runFitEpoch_single args pv.1 pv.2 (s, fs) havg]
      by_cases hgt : pv.2.gt s.best_f1 = true
      · simp only [hgt, if_pos]
        rw [ih _ _ rfl]
        rw [show bestCkptFold (pv :: rest) s.best_f1 none
            = bestCkptFold rest pv.2 (some pv.1) by simp [bestCkptFold, hgt]]
        rw [bestCkptFold_some rest pv.2 pv.1]
        cases hX : bestCkptFold rest pv.2 none with
        | some p => simp
        | none =>
            simp only [FS.save]
            rw [List.lookup_cons_self]
      · have hgtf : pv.2.gt s.best_f1 = false := by simpa using hgt
        simp only [hgtf, Bool.false_eq_true, if_false]
        rw [ih _ _ rfl]
        rw [show bestCkptFold (pv :: rest) s.best_f1 none
            = bestCkptFold rest s.best_f1 none by simp [bestCkptFold, hgtf]]

theorem fit_fs_noimprove {P : Type} (args : Args) :
    ∀ (l : List (P × FVal)) (s : LitModel P) (fs : FS P),
      s.f1_val_avg = Averager.init → s.best_f1 = FVal.num 0 →
      (∀ pv ∈ l, pv.2.gt (FVal.num 0) = false) →
      (fit args true (mkEpochs l) (s, fs)).2 = fs := by
  intro l
  induction l with
  | nil => intro s fs _ _ _; rfl
  | cons pv rest ih =>
      intro s fs havg hb hno
      rw [show mkEpochs (pv :: rest) = (⟨[pv.1], [pv.2]⟩ : EpochData P) :: mkEpochs rest
          from rfl,
        fit_cons, runFitEpoch_single args pv.1 pv.2 (s, fs) havg]
      have hgtf : pv.2.gt s.best_f1 = false := by
        rw [hb]
        exact hno pv (List.mem_cons_self _ _)
      simp only [hgtf, Bool.false_eq_true, if_false]
      exact ih _ fs rfl hb fun x hx => hno x (List.mem_cons_of_mem _ hx)

/-- C8: in held-out mode, when epoch `i` is the best epoch (its average
F1 is a number that beats the running best of all earlier epochs and is
not beaten by any later epoch), the driver returns the model reloaded
from the best-F1 checkpoint, whose parameters are those of epoch `i` —
not the final epoch's parameters when the best epoch is not the last. -/
theorem heldout_returns_best {P : Type} (args : Args) (p0 : P) (fs0 : FS P)
    (l : List (P × FVal)) (i : ℕ) (hi : i < l.length) (q : ℚ)
    (hfull : args.train_full = false)
    (hq : l[i].2 = FVal.num q)
    (hbest : (FVal.num q).gt (((l.take i).map Prod.snd).foldl
        (fun b v => if v.gt b then v else b) (FVal.num 0)) = true)
    (hafter : ∀ pv ∈ l.drop (i+1), pv.2.gt (FVal.num q) = false) :
    (train args p0 (mkEpochs l) fs0).result = Except.ok l[i].1
    ∧ (∀ pl, l.getLast? = some pl → l[i].1 ≠ pl.1 →
        (train args p0 (mkEpochs l) fs0).result ≠ Except.ok pl.1) := by
  have hlook : List.lookup (valPath args.model)
      (fit args true (mkEpochs l) (LitModel.init p0, fs0)).2 = some l[i].1 := by
    rw [fit_fs_lookup args l (LitModel.init p0) fs0 rfl,
      show (LitModel.init p0).best_f1 = FVal.num 0 from rfl,
      bestCkptFold_argmax l i hi q (FVal.num 0) none hq hbest hafter]
  have hres : (train args p0 (mkEpochs l) fs0).result = Except.ok l[i].1 := by
    simp [train, hfull, FS.load, hlook]
  refine ⟨hres, fun pl _ hne => ?_⟩
  rw [hres]
  simp [hne]

/-- C8 witness: a two-epoch run with F1 values 1.0 then 0.0 and epoch
parameters 10 then 20: the returned model carries the best (first)
epoch's parameters 10, not the final epoch's parameters 20. -/
theorem heldout_returns_best_witness :
    ((([((10:ℕ), FVal.num 1), (20, FVal.num 0)] : List (ℕ × FVal))[0].2 = FVal.num 1)
    ∧ ((FVal.num 1).gt (((([((10:ℕ), FVal.num 1), (20, FVal.num 0)]
          : List (ℕ × FVal)).take 0).map Prod.snd).foldl
        (fun b v => if v.gt b then v else b) (FVal.num 0)) = true)
    ∧ (∀ pv ∈ ([((10:ℕ), FVal.num 1), (20, FVal.num 0)] : List (ℕ × FVal)).drop 1,
        pv.2.gt (FVal.num 1) = false))
    ∧ (train ⟨"m", 0, 0, 0, 0, 0, 2, 4, 2, ["tr"], ["va"], false⟩ (0:ℕ)
        (mkEpochs [((10:ℕ), FVal.num 1), (20, FVal.num 0)]) []).result = Except.ok 10
    ∧ (train ⟨"m", 0, 0, 0, 0, 0, 2, 4, 2, ["tr"], ["va"], false⟩ (0:ℕ)
        (mkEpochs [((10:ℕ), FVal.num 1), (20, FVal.num 0)]) []).result ≠ Except.ok 20 := by
  have hq : (([((10:ℕ), FVal.num 1), (20, FVal.num 0)] : List (ℕ × FVal))[0].2 = FVal.num 1) :=
    rfl
  have hbest : (FVal.num 1).gt (((([((10:ℕ), FVal.num 1), (20, FVal.num 0)]
        : List (ℕ × FVal)).take 0).map Prod.snd).foldl
      (fun b v => if v.gt b then v else b) (FVal.num 0)) = true := by
    norm_num [FVal.gt]
  have hafter : ∀ pv ∈ ([((10:ℕ), FVal.num 1), (20, FVal.num 0)] : List (ℕ × FVal)).drop 1,
      pv.2.gt (FVal.num 1) = false := by
    intro pv hpv
    simp only [List.drop_succ_cons, List.drop_zero, List.mem_singleton] at hpv
    subst hpv
    norm_num [FVal.gt]
  have h := heldout_returns_best ⟨"m", 0, 0, 0, 0, 0, 2, 4, 2, ["tr"], ["va"], false⟩
    (0:ℕ) [] [((10:ℕ), FVal.num 1), (20, FVal.num 0)] 0 (by norm_num) 1 rfl hq hbest hafter
  exact ⟨⟨hq, hbest, hafter⟩, h.1, h.2 (20, FVal.num 0) rfl (by norm_num)⟩

/-- C9: in held-out mode, if no epoch's averaged F1 strictly exceeds the
initial best of 0.0 (NaN comparisons being false), no `_val.pt`
checkpoint is ever written — the filesystem is unchanged by the run —
yet the driver still attempts to load from that path at run end, so with
no prior checkpoint there the run ends in an uncaught
`FileNotFoundError`. -/
theorem heldout_no_improvement_error {P : Type} (args : Args) (p0 : P) (fs0 : FS P)
    (l : List (P × FVal))
    (hfull : args.train_full = false)
    (hfs0 : List.lookup (valPath args.model) fs0 = none)
    (hno : ∀ pv ∈ l, pv.2.gt (FVal.num 0) = false) :
    (train args p0 (mkEpochs l) fs0).fs = fs0
    ∧ (train args p0 (mkEpochs l) fs0).result
        = Except.error ("FileNotFoundError: " ++ valPath args.model) := by
  have hfs : (fit args true (mkEpochs l) (LitModel.init p0, fs0)).2 = fs0 :=
    fit_fs_noimprove args l _ fs0 rfl rfl hno
  have hload : FS.load fs0 (valPath args.model)
      = Except.error ("FileNotFoundError: " ++ valPath args.model) := by
    simp [FS.load, hfs0]
  refine ⟨?_, ?_⟩ <;> simp [train, hfull, hfs, hload]

/-- C9 witness: a two-epoch run whose epoch-average F1 is NaN both times
(NaN comparisons are false), starting from an empty filesystem: nothing
is written and the final load fails. -/
theorem heldout_no_improvement_error_witness :
    (∀ pv ∈ ([((1:ℕ), FVal.nan), (2, FVal.nan)] : List (ℕ × FVal)),
        pv.2.gt (FVal.num 0) = false)
    ∧ (train ⟨"m", 0, 0, 0, 0, 0, 2, 4, 2, ["tr"], ["va"], false⟩ (0:ℕ)
        (mkEpochs [((1:ℕ), FVal.nan), (2, FVal.nan)]) []).fs = []
    ∧ (train ⟨"m", 0, 0, 0, 0, 0, 2, 4, 2, ["tr"], ["va"], false⟩ (0:ℕ)
        (mkEpochs [((1:ℕ), FVal.nan), (2, FVal.nan)]) []).result
      = Except.error ("FileNotFoundError: " ++ valPath "m") := by
  have hno : ∀ pv ∈ ([((1:ℕ), FVal.nan), (2, FVal.nan)] : List (ℕ × FVal)),
      pv.2.gt (FVal.num 0) = false := by
    intro pv hpv
    fin_cases hpv <;> rfl
  have h := heldout_no_improvement_error ⟨"m", 0, 0, 0, 0, 0, 2, 4, 2, ["tr"], ["va"], false⟩
    (0:ℕ) [] [((1:ℕ), FVal.nan), (2, FVal.nan)] rfl rfl hno
  exact ⟨hno, h.1, h.2⟩

/-- C10 witness: a concrete held-out-mode run. -/
theorem heldout_loader_flags_witness :
    (let a : Args := ⟨"m", 0, 0, 0, 0, 0, 1, 4, 2, ["tr"], ["va"], false⟩
     a.train_full = false
     ∧ ((train a (7 : ℕ) [] []).datasets = [⟨a.train_dirs, true⟩, ⟨a.val_dirs, false⟩]
        ∧ (train a (7 : ℕ) [] []).dataloaders =
            [⟨⟨a.train_dirs, true⟩, a.batch_size, a.num_workers, true⟩,
             ⟨⟨a.val_dirs, false⟩, a.batch_size, a.num_workers, true⟩]
        ∧ ((train a (7 : ℕ) [] []).datasets[1]?).map DatasetCall.is_train = some false
        ∧ ((train a (7 : ℕ) [] []).dataloaders[1]?).map DataloaderCall.is_train = some true)) :=
  ⟨rfl, heldout_loader_flags _ 7 [] [] rfl⟩
